import Mathlib

/-!
Shallow embedding of `src/spotify.py` (Spotify language sorter): the
pagination engine (`get_resource`), the enrichment stage
(`get_songs_and_lan`), the chunked mutators (`empty_playlist`,
`update_playlist`, `create_playlist`) and the orchestrator (`process`).

Remote interaction is modelled by explicit oracles: a page response is an
`Except Unit (List α)` (`error` models a request that raised), the
per-track enrichment lookup outcome is a `LookupResult`, and every
outgoing engine request is recorded in a trace of `Call`s so that the
request-counting and request-shape properties can be stated.  A Python
exception that escapes a translated function is an `Except.error`.
-/

/-- Python exceptions that can escape the translated functions. -/
inductive PyError where
  | attributeError
  | requestError
  deriving DecidableEq

/-- Python `round(total / 50)`: round half to even.  (`total / 50` is
exact in double precision at the tie `total % 50 = 25`, and far from a
half-integer otherwise, so the float detour in the source cannot change
the result for realistic totals.) -/
def pyRound50 (n : Nat) : Nat :=
  if n % 50 < 25 then n / 50
  else if 25 < n % 50 then n / 50 + 1
  else if (n / 50) % 2 = 0 then n / 50 else n / 50 + 1

/-- `round(total / 50) or 1` from `get_resource`: a zero page count is
replaced by one page. -/
def numPages (total : Nat) : Nat :=
  if pyRound50 total = 0 then 1 else pyRound50 total

/-- One iteration of the page loop of `get_resource`: record the
`(offset, limit)` request; on success extend the accumulated items, on a
raised exception keep them as they are (the `try`/`except` skips the
page). -/
def pageStep {α : Type} (pageResp : Nat → Except Unit (List α))
    (acc : List (Nat × Nat) × List α) (page : Nat) :
    List (Nat × Nat) × List α :=
  match pageResp page with
  | .ok its => (acc.1 ++ [(page * 50, 50)], acc.2 ++ its)
  | .error _ => (acc.1 ++ [(page * 50, 50)], acc.2)

/-- `get_resource`: learn `total` (supplied by the oracle), then fetch
`round(total/50) or 1` pages with `offset = page * 50, limit = 50`,
concatenating the `items` arrays and skipping pages whose request
raised.  Returns the page requests issued and the accumulated items. -/
def get_resource {α : Type} (total : Nat)
    (pageResp : Nat → Except Unit (List α)) :
    List (Nat × Nat) × List α :=
  (List.range (numPages total)).foldl (pageStep pageResp) ([], [])

/-- The items a page contributes to the result of `get_resource`: its
`items` array if the request succeeded, nothing if it raised. -/
def pageItems {α : Type} (pageResp : Nat → Except Unit (List α))
    (page : Nat) : List α :=
  match pageResp page with
  | .ok its => its
  | .error _ => []

/-- A saved track as built by `get_songs` (name, first artist, uri). -/
structure Song where
  name : String
  artist : String
  uri : String
  deriving DecidableEq

/-- A track after enrichment: `lan` has been assigned. -/
structure LSong where
  name : String
  artist : String
  lan : String
  uri : String
  deriving DecidableEq

/-- Outcome of one enrichment lookup
(`track.lan.result().json()["response"]["hits"][0]["result"]["language"]`):
`requestFailed` models a network error or malformed response, which
raises something other than `KeyError`/`IndexError`; `noHits` raises
`IndexError` on `hits[0]`; `missingField` raises `KeyError` on one of the
dictionary keys; `language l` is a successfully parsed, possibly null,
language field. -/
inductive LookupResult where
  | requestFailed
  | noHits
  | missingField
  | language (l : Option String)
  deriving DecidableEq

/-- Per-track resolution in `get_songs_and_lan`: the `except (KeyError,
IndexError)` clause turns `noHits` and `missingField` into the fallback
label, the explicit `is None` check turns a null language into the
fallback label, and a `requestFailed` outcome escapes uncaught. -/
def resolveLan : LookupResult → Except PyError String
  | .requestFailed => .error .requestError
  | .noHits => .ok "unidentified"
  | .missingField => .ok "unidentified"
  | .language none => .ok "unidentified"
  | .language (some s) => .ok s

/-- The resolution loop of `get_songs_and_lan`: tracks are resolved in
order (future `i` belongs to track `i`); the first uncaught exception
escapes. -/
def assignLans (lookup : Nat → LookupResult) :
    Nat → List Song → Except PyError (List LSong)
  | _, [] => .ok []
  | i, s :: rest =>
      match resolveLan (lookup i) with
      | .error e => .error e
      | .ok lan =>
          match assignLans lookup (i + 1) rest with
          | .error e => .error e
          | .ok tail => .ok (⟨s.name, s.artist, lan, s.uri⟩ :: tail)

/-- `get_songs_and_lan`, given the fetched songs and the per-track lookup
outcomes. -/
def get_songs_and_lan (songs : List Song) (lookup : Nat → LookupResult) :
    Except PyError (List LSong) :=
  assignLans lookup 0 songs

/-- The lookup outcomes that the `except (KeyError, IndexError)` clause
handles, i.e. everything except a raising request. -/
inductive HitOutcome where
  | noHits
  | missingField
  | language (l : Option String)
  deriving DecidableEq

def HitOutcome.toLookup : HitOutcome → LookupResult
  | .noHits => .noHits
  | .missingField => .missingField
  | .language l => .language l

/-- Refinement target following the spec's words: "parse the first search
hit's language field; if missing, null, absent (no hits), or the
secondary request itself failed, assign the fallback label
unidentified". -/
def specLabelOf : HitOutcome → String
  | .language (some s) => s
  | _ => "unidentified"

/-- The labelling `get_songs_and_lan` performs on the caught outcomes,
track by track. -/
def labelWith (f : Nat → HitOutcome) : Nat → List Song → List LSong
  | _, [] => []
  | i, s :: rest =>
      ⟨s.name, s.artist, specLabelOf (f i), s.uri⟩ :: labelWith f (i + 1) rest

/-- A reported language value that is non-null is also non-empty. -/
def langNonempty : HitOutcome → Prop
  | .language (some s) => s ≠ ""
  | _ => True

/-- One `POST playlists/{id}/tracks` body: the uris of the chunk and the
optional explicit position. -/
structure AddRequest where
  uris : List String
  position : Option Nat
  deriving DecidableEq

/-- `update_playlist`: one append request per 90-chunk
(`songs[i*90 : i*90+90]`), with no position field. -/
def update_playlist (uris : List String) : List AddRequest :=
  (List.range ((uris.length + 89) / 90)).map
    (fun i => ⟨(uris.drop (i * 90)).take 90, none⟩)

/-- Model of the parsed JSON body (`response.json()`, a Python dict) that
`make_call` returns to its caller. -/
structure Json where
  fields : List (String × String)
  deriving DecidableEq

/-- Python attribute access `resp.status_code` where `resp` is the dict
`make_call` returned: a dict has no `status_code` attribute, so the
access raises `AttributeError`. -/
def dictStatusCode (_ : Json) : Except PyError Nat :=
  .error .attributeError

/-- Python falsiness of the value of `.get("id")`: `None` or the empty
string. -/
def pyFalsy : Option String → Bool
  | none => true
  | some s => s == ""

/-- The append loop of `create_playlist`: chunk `i` is
`songs[i*90 : (i+1)*90]` with `position = i * 90`; the loop then reads
`.status_code` off the parsed JSON dict that `make_call` returned, which
raises `AttributeError`. -/
def create_append_loop (appendResp : Nat → Json) (songs : List String) :
    Nat → Nat → List AddRequest × Except PyError Bool
  | _, 0 => ([], .ok true)
  | i, n + 1 =>
      let req : AddRequest := ⟨(songs.drop (i * 90)).take 90, some (i * 90)⟩
      match dictStatusCode (appendResp i) with
      | .error e => ([req], .error e)
      | .ok code =>
          if code ≠ 200 then ([req], .ok false)
          else
            let rest := create_append_loop appendResp songs (i + 1) n
            (req :: rest.1, rest.2)

/-- `create_playlist`: `createId` is what `.get("id")` returned for the
creation call; result is the append requests issued and the outcome
(`.ok` a boolean, `.error` an escaped exception). -/
def create_playlist (createId : Option String) (appendResp : Nat → Json)
    (songs : List String) : List AddRequest × Except PyError Bool :=
  if pyFalsy createId then ([], .ok false)
  else create_append_loop appendResp songs 0 ((songs.length + 89) / 90)

/-- An engine request issued during a run. -/
inductive Call where
  | getUser
  | savedTracksPage (offset limit : Nat)
  | enrichLookup (i : Nat)
  | playlistsPage (offset limit : Nat)
  | playlistTotalQuery (id : String)
  | playlistPageFetch (id : String) (uris : List String)
  | removeTracks (id : String) (uris : List String)
  | addTracks (id : String) (req : AddRequest)
  | createCall (name : String)
  deriving DecidableEq

/-- The body of the `empty_playlist` loop, run a fixed number of times:
fetch the current first page (`limit = 50`, no offset) of the remote
playlist, then issue one removal for exactly those uris; the removal
deletes every occurrence of the listed uris from the remote state. -/
def emptyIter (pid : String) : Nat → List String → List Call × List String
  | 0, st => ([], st)
  | n + 1, st =>
      let page := st.take 50
      let remaining := st.filter (fun u => !decide (u ∈ page))
      let rest := emptyIter pid n remaining
      (Call.playlistPageFetch pid page :: Call.removeTracks pid page :: rest.1,
       rest.2)

/-- `empty_playlist`: the total is queried once, in the argument of
`range(...)`; the loop then runs `ceil(total / 50)` times.  Returns the
requests issued and the final remote state. -/
def empty_playlist (pid : String) (st0 : List String) :
    List Call × List String :=
  let rest := emptyIter pid ((st0.length + 49) / 50) st0
  (Call.playlistTotalQuery pid :: rest.1, rest.2)

def isTotalQuery : Call → Bool
  | .playlistTotalQuery _ => true
  | _ => false

def isRemoval : Call → Bool
  | .removeTracks _ _ => true
  | _ => false

/-- The call list consists of page-fetch/removal pairs for playlist
`pid`, where each removal carries exactly the uris the directly preceding
page fetch returned, at most 50 of them. -/
def wellPaired (pid : String) : List Call → Prop
  | [] => True
  | Call.playlistPageFetch id1 u :: Call.removeTracks id2 v :: rest =>
      id1 = pid ∧ id2 = pid ∧ v = u ∧ u.length ≤ 50 ∧ wellPaired pid rest
  | _ => False

/-- `set(song.lan for song in all_songs)`; iteration order of a Python
set is unspecified, first-occurrence order is the model's choice. -/
def distinctLans (tracks : List LSong) : List String :=
  (tracks.map LSong.lan).dedup

/-- `lan_songs_dict[song.lan].append(song.uri)` on the dict modelled as
an association list: append the uri to every entry whose key matches. -/
def addToDict (d : List (String × List String)) (k v : String) :
    List (String × List String) :=
  d.map (fun p => if p.1 == k then (p.1, p.2 ++ [v]) else p)

/-- `lan_songs_dict`: one entry per distinct label, filled by appending
each track's uri to its label's entry, in track order. -/
def lanSongsDict (tracks : List LSong) : List (String × List String) :=
  tracks.foldl (fun d t => addToDict d t.lan t.uri)
    ((distinctLans tracks).map (fun l => (l, [])))

/-- Dictionary lookup on the association-list model. -/
def dictGet (d : List (String × List String)) (k : String) : List String :=
  match d.find? (fun p => p.1 == k) with
  | some p => p.2
  | none => []

/-- `{playlist.name: playlist.playlist_id}`: a later duplicate name
overwrites an earlier one, so lookup finds the last matching entry. -/
def playlistNames (pls : List (String × String)) (lan : String) :
    Option String :=
  (pls.reverse.find? (fun p => p.1 == lan)).map Prod.snd

/-- The remote world a run interacts with.  Totals and page responses
feed `get_resource`; `lookups` are the enrichment outcomes by track
index; `playlistTracks` is the current membership of an existing
playlist; `createResp` is the `id` the creation call yields;
`appendResp` is the parsed body of an append response. -/
structure Env where
  accessToken : Option String
  userId : String
  savedTotal : Nat
  savedPages : Nat → Except Unit (List Song)
  lookups : Nat → LookupResult
  playlistsTotal : Nat
  playlistsPages : Nat → Except Unit (List (String × String))
  playlistTracks : String → List String
  createResp : String → Option String
  appendResp : Nat → Json

/-- The label loop of `process`: an existing playlist is emptied and
refilled with `update_playlist`; otherwise `create_playlist` runs, its
boolean result is ignored, and an exception escaping it aborts the
loop. -/
def reconcile (e : Env) (names : List (String × String)) :
    List (String × List String) → List Call × Except PyError Unit
  | [] => ([], .ok ())
  | (lan, uris) :: rest =>
      match playlistNames names lan with
      | some pid =>
          let ec := empty_playlist pid (e.playlistTracks pid)
          let upd := (update_playlist uris).map (Call.addTracks pid)
          let tail := reconcile e names rest
          (ec.1 ++ upd ++ tail.1, tail.2)
      | none =>
          let cid := e.createResp lan
          let cr := create_playlist cid e.appendResp uris
          let cc := Call.createCall lan ::
            cr.1.map (Call.addTracks (cid.getD ""))
          match cr.2 with
          | .error err => (cc, .error err)
          | .ok _ =>
              let tail := reconcile e names rest
              (cc ++ tail.1, tail.2)

inductive ProcOutcome where
  | aborted
  | finished
  deriving DecidableEq

/-- The saved tracks `process` fetches (`me/tracks`). -/
def savedItems (e : Env) : List Song :=
  (get_resource e.savedTotal e.savedPages).2

/-- The `(name, id)` pairs of the user's playlists `process` fetches. -/
def playlistItems (e : Env) : List (String × String) :=
  (get_resource e.playlistsTotal e.playlistsPages).2

/-- The enriched tracks of a run, when enrichment returned. -/
def enrichedTracks (e : Env) : List LSong :=
  match get_songs_and_lan (savedItems e) e.lookups with
  | .ok ts => ts
  | .error _ => []

/-- The orchestrator `process`: authorize (return `False`, modelled
`aborted`, on a falsy token; `authorize` itself catches its exception and
yields no token), fetch and enrich the saved tracks, group by language,
fetch the playlists, then reconcile label by label.  Returns the trace of
engine requests and the outcome; an uncaught exception is `.error`. -/
def process (e : Env) : List Call × Except PyError ProcOutcome :=
  match e.accessToken with
  | none => ([], .ok .aborted)
  | some tok =>
      if tok = "" then ([Call.getUser], .ok .aborted)
      else
        let saved := get_resource e.savedTotal e.savedPages
        let fetchCalls := Call.getUser ::
          saved.1.map (fun r => Call.savedTracksPage r.1 r.2)
        let lookupCalls := (List.range saved.2.length).map Call.enrichLookup
        match get_songs_and_lan saved.2 e.lookups with
        | .error err => (fetchCalls ++ lookupCalls, .error err)
        | .ok enriched =>
            let dict := lanSongsDict enriched
            let pls := get_resource e.playlistsTotal e.playlistsPages
            let plCalls := pls.1.map (fun r => Call.playlistsPage r.1 r.2)
            let recon := reconcile e pls.2 dict
            (fetchCalls ++ lookupCalls ++ plCalls ++ recon.1,
             recon.2.map (fun _ => ProcOutcome.finished))

/-- A concrete saved track used in concrete scenarios. -/
def sampleSong : Song := ⟨"song", "artist", "spotify:track:1"⟩

/-- A healthy environment: one saved track, a no-hit lookup (label
becomes the fallback), and an existing playlist named after the fallback
label, so the run never reaches `create_playlist`. -/
def envBase : Env where
  accessToken := some "t"
  userId := "user"
  savedTotal := 0
  savedPages := fun _ => .ok [sampleSong]
  lookups := fun _ => .noHits
  playlistsTotal := 0
  playlistsPages := fun _ => .ok [("unidentified", "pid")]
  playlistTracks := fun _ => []
  createResp := fun _ => none
  appendResp := fun _ => ⟨[]⟩

/-- `envBase` with an enrichment lookup that raises a network error. -/
def envLookupRaises : Env := { envBase with lookups := fun _ => .requestFailed }

/-- A 51-track remote playlist (two removal iterations). -/
def fifty1 : List String := List.replicate 51 "u"

/-- A 91-uri group (two append chunks). -/
def uris91 : List String := List.replicate 91 "u"

/-- `envBase` with no existing playlists, so the run reaches the
creation branch for its one label; the creation call yields no id
(`createResp` is `none`), which `process` converts to an ignored
`False`. -/
def envNoPlaylists : Env := { envBase with playlistsPages := fun _ => Except.ok [] }

theorem foldl_pageStep {α : Type} (pageResp : Nat → Except Unit (List α)) :
    ∀ (ps : List Nat) (reqs : List (Nat × Nat)) (its : List α),
      ps.foldl (pageStep pageResp) (reqs, its) =
        (reqs ++ ps.map (fun p => (p * 50, 50)),
         its ++ (ps.map (pageItems pageResp)).flatten)
  | [], reqs, its => by simp
  | p :: ps, reqs, its => by
      have ih := foldl_pageStep pageResp ps
      cases hp : pageResp p with
      | ok x =>
          simp [List.foldl_cons, pageStep, hp, ih, pageItems]
      | error e =>
          simp [List.foldl_cons, pageStep, hp, ih, pageItems]

theorem numPages_eq_max (total : Nat) :
    numPages total = max 1 (pyRound50 total) := by
  unfold numPages
  split <;> omega

/-- Claim C1: for every total item count `N` reported by the remote
endpoint, `get_resource` issues `max(1, round(N/50))` page requests
(`round` being Python's round-half-to-even), page `p` carrying
`offset = p * 50, limit = 50`, and returns the concatenation of the
pages' `items` arrays in page order. -/
theorem get_resource_pagination {α : Type} (total : Nat)
    (items : Nat → List α) :
    (get_resource total (fun p => .ok (items p))).1 =
        (List.range (max 1 (pyRound50 total))).map (fun p => (p * 50, 50))
    ∧ (get_resource total (fun p => .ok (items p))).1.length =
        max 1 (pyRound50 total)
    ∧ (get_resource total (fun p => .ok (items p))).2 =
        ((List.range (max 1 (pyRound50 total))).map items).flatten := by
  have hn := numPages_eq_max total
  unfold get_resource
  rw [foldl_pageStep]
  refine ⟨by simp [hn], by simp [hn], ?_⟩
  have hpi : pageItems (fun p => (Except.ok (items p) : Except Unit (List α)))
      = items := rfl
  simp only [List.nil_append, hn, hpi]

/-- Claim C7: a page request of `get_resource` whose underlying call
raised is skipped: every page is still requested exactly once (no retry,
no abort), a failed page contributes no items, and the result is the
in-order concatenation of the surviving pages' items. -/
theorem get_resource_partial_failure {α : Type} (total : Nat)
    (pageResp : Nat → Except Unit (List α)) :
    (get_resource total pageResp).1 =
        (List.range (numPages total)).map (fun p => (p * 50, 50))
    ∧ (get_resource total pageResp).2 =
        ((List.range (numPages total)).map (pageItems pageResp)).flatten := by
  unfold get_resource
  rw [foldl_pageStep]
  simp

theorem chunks_take (u : List String) : ∀ n : Nat,
    ((List.range n).map (fun i => (u.drop (i * 90)).take 90)).flatten =
      u.take (90 * n)
  | 0 => by simp
  | n + 1 => by
      rw [List.range_succ, List.map_append, List.flatten_append,
        chunks_take u n]
      have h1 : 90 * (n + 1) = 90 * n + 90 := by ring
      have h2 : n * 90 = 90 * n := by ring
      simp [h1, h2, List.take_add]

/-- Claim C5: `update_playlist` issues exactly `ceil(len(U)/90)` append
requests, request `i` carrying `U[i*90 : i*90+90]` and no position
field, each at most 90 uris, the concatenation of the chunks
reconstructing `U` in order; an empty `U` issues no request. -/
theorem update_playlist_chunking (uris : List String) :
    (update_playlist uris).length = (uris.length + 89) / 90
    ∧ update_playlist uris =
        (List.range ((uris.length + 89) / 90)).map
          (fun i => ⟨(uris.drop (i * 90)).take 90, none⟩)
    ∧ (update_playlist uris).all
        (fun r => decide (r.uris.length ≤ 90) && r.position == none) = true
    ∧ ((update_playlist uris).map AddRequest.uris).flatten = uris
    ∧ update_playlist [] = [] := by
  refine ⟨by simp [update_playlist], rfl, ?_, ?_, by simp [update_playlist]⟩
  · rw [List.all_eq_true]
    intro r hr
    simp only [update_playlist, List.mem_map] at hr
    obtain ⟨i, _, rfl⟩ := hr
    simp [List.length_take_le]
  · unfold update_playlist
    rw [List.map_map]
    have hc : (AddRequest.uris ∘ fun i =>
        (⟨(uris.drop (i * 90)).take 90, none⟩ : AddRequest)) =
        fun i => (uris.drop (i * 90)).take 90 := rfl
    rw [hc, chunks_take]
    apply List.take_of_length_le
    omega

theorem filter_page_length (st : List String) :
    (st.filter (fun u => !decide (u ∈ st.take 50))).length ≤ st.length - 50 := by
  have h1 : st.filter (fun u => !decide (u ∈ st.take 50))
      = (st.take 50 ++ st.drop 50).filter (fun u => !decide (u ∈ st.take 50)) := by
    rw [List.take_append_drop]
  rw [h1, List.filter_append]
  have h2 : (st.take 50).filter (fun u => !decide (u ∈ st.take 50)) = [] := by
    rw [List.filter_eq_nil_iff]
    intro a ha
    simp [ha]
  rw [h2, List.nil_append]
  calc ((st.drop 50).filter (fun u => !decide (u ∈ st.take 50))).length
      ≤ (st.drop 50).length := List.length_filter_le _ _
    _ = st.length - 50 := List.length_drop 50 st

theorem emptyIter_empties (pid : String) : ∀ (n : Nat) (st : List String),
    st.length ≤ 50 * n → (emptyIter pid n st).2 = []
  | 0, st, h => by
      have hst : st = [] := List.eq_nil_of_length_eq_zero (by omega)
      simp [hst, emptyIter]
  | n + 1, st, h => by
      simp only [emptyIter]
      apply emptyIter_empties pid n
      have := filter_page_length st
      omega

theorem emptyIter_shape (pid : String) : ∀ (n : Nat) (st : List String),
    (emptyIter pid n st).1.countP isTotalQuery = 0
    ∧ (emptyIter pid n st).1.countP isRemoval = n
    ∧ wellPaired pid (emptyIter pid n st).1
  | 0, st => by simp [emptyIter, wellPaired]
  | n + 1, st => by
      obtain ⟨h1, h2, h3⟩ :=
        emptyIter_shape pid n (st.filter (fun u => !decide (u ∈ st.take 50)))
      refine ⟨?_, ?_, ?_⟩
      · simp [emptyIter, List.countP_cons, isTotalQuery, h1]
      · simp [emptyIter, List.countP_cons, isRemoval, h2]
      · simp only [emptyIter, wellPaired]
        exact ⟨trivial, trivial, trivial, List.length_take_le 50 st, h3⟩

/-- Claim C4 counterexample: on a 51-track playlist the loop runs
`ceil(51/50) = 2` removal iterations, yet the current total is queried
exactly once (`range(...)` evaluates its argument once, before the
loop), not once per iteration as the claim states. -/
theorem empty_playlist_single_total_query :
    ((empty_playlist "p" fifty1).1.countP isTotalQuery = 1)
    ∧ ((empty_playlist "p" fifty1).1.countP isRemoval = 2) := by decide

/-- Claim C4 (amended): `empty_playlist` queries the playlist total once
at entry, iterates `ceil(total/50)` times, each iteration fetching the
current first page of at most 50 member uris and issuing one removal
request for exactly those uris; since each removal deletes the fetched
uris, the remote playlist is empty on exit. -/
theorem empty_playlist_amended (pid : String) (st0 : List String) :
    (empty_playlist pid st0).1.countP isTotalQuery = 1
    ∧ (empty_playlist pid st0).1.countP isRemoval = (st0.length + 49) / 50
    ∧ (empty_playlist pid st0).1.head? = some (Call.playlistTotalQuery pid)
    ∧ wellPaired pid ((empty_playlist pid st0).1.drop 1)
    ∧ (empty_playlist pid st0).2 = [] := by
  obtain ⟨h1, h2, h3⟩ := emptyIter_shape pid ((st0.length + 49) / 50) st0
  refine ⟨?_, ?_, rfl, ?_, ?_⟩
  · simp [empty_playlist, List.countP_cons, isTotalQuery, h1]
  · simp [empty_playlist, List.countP_cons, isRemoval, h2]
  · simpa [empty_playlist] using h3
  · exact emptyIter_empties pid _ st0 (by omega)

theorem assignLans_caught (f : Nat → HitOutcome) : ∀ (i : Nat) (songs : List Song),
    assignLans (fun j => (f j).toLookup) i songs = Except.ok (labelWith f i songs)
  | _, [] => rfl
  | i, s :: rest => by
      have ih := assignLans_caught f (i + 1) rest
      simp only [assignLans, ih, labelWith]
      cases hf : f i with
      | noHits => simp [HitOutcome.toLookup, resolveLan, specLabelOf]
      | missingField => simp [HitOutcome.toLookup, resolveLan, specLabelOf]
      | language l =>
          cases l with
          | none => simp [HitOutcome.toLookup, resolveLan, specLabelOf]
          | some s => simp [HitOutcome.toLookup, resolveLan, specLabelOf]

theorem labelWith_lan_ne_empty (f : Nat → HitOutcome)
    (hne : ∀ i, langNonempty (f i)) : ∀ (i : Nat) (songs : List Song),
    (labelWith f i songs).all (fun t => !(t.lan == "")) = true
  | _, [] => rfl
  | i, s :: rest => by
      have ih := labelWith_lan_ne_empty f hne (i + 1) rest
      have hhead : specLabelOf (f i) ≠ "" := by
        have hi := hne i
        cases hf : f i with
        | noHits => simp [specLabelOf]
        | missingField => simp [specLabelOf]
        | language l =>
            cases l with
            | none => simp [specLabelOf]
            | some s =>
                rw [hf] at hi
                simpa [specLabelOf, langNonempty] using hi
      simp [labelWith, List.all_cons, ih, hhead]

/-- Claim C3 counterexample: an enrichment lookup that fails with a
network error or malformed response raises outside the
`except (KeyError, IndexError)` clause, so `get_songs_and_lan` raises
instead of assigning the fallback label — the failure is fatal to the
call and no track list is returned. -/
theorem enrichment_request_error_fatal :
    get_songs_and_lan [sampleSong] (fun _ => LookupResult.requestFailed)
      = Except.error PyError.requestError := rfl

/-- Claim C3 (amended): when every lookup outcome is one the
`except (KeyError, IndexError)` clause handles — no hits, a missing
field, or a present (possibly null) language — `get_songs_and_lan`
returns normally, labelling each track with the hit's language if
present and non-null and with the fallback sentinel "unidentified"
otherwise; if every reported language value is non-empty, every returned
label is non-empty.  (A lookup whose request fails with a network error
or malformed response instead raises, and the exception escapes the
call.) -/
theorem get_songs_and_lan_labels (songs : List Song) (f : Nat → HitOutcome)
    (hne : ∀ i, langNonempty (f i)) :
    get_songs_and_lan songs (fun j => (f j).toLookup)
        = Except.ok (labelWith f 0 songs)
    ∧ (labelWith f 0 songs).all (fun t => !(t.lan == "")) = true :=
  ⟨assignLans_caught f 0 songs, labelWith_lan_ne_empty f hne 0 songs⟩

/-- Witness for the amended claim C3 at a concrete input. -/
theorem get_songs_and_lan_labels_witness :
    get_songs_and_lan [sampleSong]
        (fun j => ((fun _ : Nat => HitOutcome.noHits) j).toLookup)
        = Except.ok (labelWith (fun _ => HitOutcome.noHits) 0 [sampleSong])
    ∧ (labelWith (fun _ => HitOutcome.noHits) 0 [sampleSong]).all
        (fun t => !(t.lan == "")) = true :=
  get_songs_and_lan_labels [sampleSong] (fun _ => HitOutcome.noHits)
    (fun _ => trivial)

/-- Claim C2 (code bug): when the creation call yields no id,
`create_playlist` returns `False` and issues no append request; but as
soon as there is at least one chunk to append, the code reads
`.status_code` off the parsed JSON dict `make_call` returned, so the
first append iteration raises `AttributeError` instead of producing any
boolean. -/
theorem create_playlist_status_code_bug :
    create_playlist none (fun _ => ⟨[]⟩) ["u"] = ([], Except.ok false)
    ∧ (create_playlist (some "p") (fun _ => ⟨[]⟩) ["u"]).2
        = Except.error PyError.attributeError :=
  ⟨rfl, rfl⟩

theorem foldl_addToDict : ∀ (ts : List LSong) (d : List (String × List String)),
    ts.foldl (fun d t => addToDict d t.lan t.uri) d =
      d.map (fun p =>
        (p.1, p.2 ++ (ts.filter (fun t => t.lan == p.1)).map LSong.uri))
  | [], d => by simp
  | t :: ts, d => by
      rw [List.foldl_cons, foldl_addToDict ts (addToDict d t.lan t.uri)]
      unfold addToDict
      rw [List.map_map]
      apply List.map_congr_left
      intro p _
      by_cases h : p.1 = t.lan
      · simp [Function.comp, h, List.filter_cons, List.append_assoc]
      · have h1 : (p.1 == t.lan) = false := by
          simpa using fun hc => h hc
        have h2 : (t.lan == p.1) = false := by
          simpa using fun hc => h hc.symm
        simp [Function.comp, h1, List.filter_cons, h2]

theorem lanSongsDict_eq (tracks : List LSong) :
    lanSongsDict tracks = (distinctLans tracks).map
      (fun l => (l, (tracks.filter (fun t => t.lan == l)).map LSong.uri)) := by
  unfold lanSongsDict
  rw [foldl_addToDict, List.map_map]
  apply List.map_congr_left
  intro l _
  simp [Function.comp]

theorem join_filter_perm : ∀ (keys : List String) (ts : List LSong),
    keys.Nodup → (∀ t ∈ ts, t.lan ∈ keys) →
    List.Perm (keys.map (fun l => ts.filter (fun t => t.lan == l))).flatten ts
  | [], ts, _, hmem => by
      have hts : ts = [] := by
        cases ts with
        | nil => rfl
        | cons t ts => exact absurd (hmem t (by simp)) (by simp)
      simp [hts]
  | k :: ks, ts, hnd, hmem => by
      rw [List.map_cons, List.flatten_cons]
      obtain ⟨hk, hks⟩ := List.nodup_cons.mp hnd
      have hmap : ks.map (fun l => ts.filter (fun t => t.lan == l))
          = ks.map (fun l =>
              (ts.filter (fun t => !(t.lan == k))).filter
                (fun t => t.lan == l)) := by
        apply List.map_congr_left
        intro l hl
        have hlk : l ≠ k := fun hc => hk (hc ▸ hl)
        rw [List.filter_filter]
        apply List.filter_congr
        intro t _
        by_cases ht : t.lan = l
        · have : (t.lan == k) = false := by
            simpa using fun hc => hlk (ht.symm.trans hc)
          simp [ht, this, hlk]
        · have : (t.lan == l) = false := by
            simpa using fun hc => ht hc
          simp [this]
      rw [hmap]
      have hmem' : ∀ t ∈ ts.filter (fun t => !(t.lan == k)), t.lan ∈ ks := by
        intro t ht
        obtain ⟨htts, htk⟩ := List.mem_filter.mp ht
        have : t.lan ≠ k := by simpa using htk
        have := hmem t htts
        simp only [List.mem_cons] at this
        exact this.resolve_left (by simpa using htk)
      have ih := join_filter_perm ks (ts.filter (fun t => !(t.lan == k)))
        hks hmem'
      exact (List.Perm.append_left (ts.filter (fun t => t.lan == k)) ih).trans
        (List.filter_append_perm (fun t => t.lan == k) ts)

/-- Claim C8: flattening the label groups back into one sequence yields a
multiset equal to the multiset of all enriched tracks' uris — the
grouping step loses and duplicates nothing. -/
theorem grouping_roundtrip (tracks : List LSong) :
    ((((lanSongsDict tracks).map Prod.snd).flatten : List String) : Multiset String)
      = ((tracks.map LSong.uri : List String) : Multiset String) := by
  rw [Multiset.coe_eq_coe, lanSongsDict_eq, List.map_map]
  have hc : (Prod.snd ∘ fun l =>
      (l, (tracks.filter (fun t => t.lan == l)).map LSong.uri)) =
      fun l => (tracks.filter (fun t => t.lan == l)).map LSong.uri := rfl
  rw [hc]
  have hj : ((distinctLans tracks).map
      (fun l => (tracks.filter (fun t => t.lan == l)).map LSong.uri)).flatten
      = (((distinctLans tracks).map
          (fun l => tracks.filter (fun t => t.lan == l))).flatten).map LSong.uri := by
    rw [List.map_flatten, List.map_map]
    rfl
  rw [hj]
  apply List.Perm.map
  apply join_filter_perm
  · exact List.nodup_dedup _
  · intro t ht
    exact List.mem_dedup.mpr (List.mem_map_of_mem LSong.lan ht)

theorem dictGet_keyMap (g : String → List String) : ∀ (ks : List String) (l : String),
    dictGet (ks.map (fun k => (k, g k))) l = if l ∈ ks then g l else []
  | [], l => by simp [dictGet]
  | k :: ks, l => by
      by_cases h : k = l
      · subst h
        simp [dictGet, List.find?_cons_of_pos]
      · have ih := dictGet_keyMap g ks l
        have hb : (k == l) = false := by
          simpa using fun hc => h hc
        have hnm : l ∈ k :: ks ↔ l ∈ ks := by
          constructor
          · intro hm
            rcases List.mem_cons.mp hm with hh | hh
            · exact absurd hh.symm h
            · exact hh
          · exact fun hm => List.mem_cons_of_mem _ hm
        rw [List.map_cons]
        unfold dictGet at ih ⊢
        rw [List.find?_cons]
        simp only [hb]
        rw [ih]
        simp [hnm]

/-- Claim C10 (amended): the uris grouped under a label `l` are exactly
the uris of the enriched tracks whose label is `l`, in original fetch
order (and any string that is no track's label has an empty group);
`update_playlist` submits exactly those uris, in that order, across its
chunks; `create_playlist` submits only the first chunk of at most 90
uris — in order, but a mere prefix — before the `.status_code` read on
the parsed append response raises. -/
theorem grouping_order (tracks : List LSong) (l : String)
    (uris : List String) (appendResp : Nat → Json) :
    dictGet (lanSongsDict tracks) l
        = (tracks.filter (fun t => t.lan == l)).map LSong.uri
    ∧ ((update_playlist uris).map AddRequest.uris).flatten = uris
    ∧ ((create_playlist (some "p") appendResp uris).1.map
        AddRequest.uris).flatten = uris.take 90 := by
  refine ⟨?_, ?_, ?_⟩
  · rw [lanSongsDict_eq]
    have hgm : (distinctLans tracks).map
        (fun k => (k, (tracks.filter (fun t => t.lan == k)).map LSong.uri))
        = (distinctLans tracks).map
          (fun k => (k, ((fun k => (tracks.filter
            (fun t => t.lan == k)).map LSong.uri) k))) := rfl
    rw [hgm, dictGet_keyMap]
    by_cases hmem : l ∈ distinctLans tracks
    · simp [hmem]
    · have hfe : tracks.filter (fun t => t.lan == l) = [] := by
        rw [List.filter_eq_nil_iff]
        intro t ht
        intro hc
        apply hmem
        have : t.lan = l := by simpa using hc
        exact this ▸ List.mem_dedup.mpr (List.mem_map_of_mem LSong.lan ht)
      simp [hmem, hfe]
  · unfold update_playlist
    rw [List.map_map]
    have hc : (AddRequest.uris ∘ fun i =>
        (⟨(uris.drop (i * 90)).take 90, none⟩ : AddRequest)) =
        fun i => (uris.drop (i * 90)).take 90 := rfl
    rw [hc, chunks_take]
    apply List.take_of_length_le
    omega
  · have hff : pyFalsy (some "p") = false := rfl
    unfold create_playlist
    rw [hff]
    simp only [Bool.false_eq_true, if_false]
    cases hn : (uris.length + 89) / 90 with
    | zero =>
        have hlen : uris.length = 0 := by omega
        have huris : uris = [] := List.eq_nil_of_length_eq_zero hlen
        subst huris
        rfl
    | succ m =>
        simp [create_append_loop, dictStatusCode]

/-- Claim C10 counterexample: a label group of 91 uris routed to
`create_playlist` has only its first 90 uris submitted — the first
append request is issued and then the `.status_code` read raises — so
the population call does not submit the full grouped sequence. -/
theorem create_submits_prefix_only :
    ¬ ((create_playlist (some "p") (fun _ => ⟨[]⟩) uris91).1.map
        AddRequest.uris).flatten = uris91 := by decide

theorem assignLans_ok_of_caught (lookup : Nat → LookupResult)
    (h : ∀ i, lookup i ≠ LookupResult.requestFailed) :
    ∀ (i : Nat) (songs : List Song),
      ∃ ts, assignLans lookup i songs = Except.ok ts
  | _, [] => ⟨[], rfl⟩
  | i, s :: rest => by
      obtain ⟨ts, hts⟩ := assignLans_ok_of_caught lookup h (i + 1) rest
      have hi := h i
      cases hl : lookup i with
      | requestFailed => exact absurd hl hi
      | noHits =>
          exact ⟨⟨s.name, s.artist, "unidentified", s.uri⟩ :: ts,
            by simp [assignLans, hl, resolveLan, hts]⟩
      | missingField =>
          exact ⟨⟨s.name, s.artist, "unidentified", s.uri⟩ :: ts,
            by simp [assignLans, hl, resolveLan, hts]⟩
      | language l =>
          cases l with
          | none =>
              exact ⟨⟨s.name, s.artist, "unidentified", s.uri⟩ :: ts,
                by simp [assignLans, hl, resolveLan, hts]⟩
          | some s2 =>
              exact ⟨⟨s.name, s.artist, s2, s.uri⟩ :: ts,
                by simp [assignLans, hl, resolveLan, hts]⟩

theorem reconcile_ok (e : Env) (names : List (String × String)) :
    ∀ (entries : List (String × List String)),
      (∀ p ∈ entries, playlistNames names p.1 = none →
        pyFalsy (e.createResp p.1) = true) →
      (reconcile e names entries).2 = Except.ok ()
  | [], _ => rfl
  | (lan, uris) :: rest, h => by
      cases hp : playlistNames names lan with
      | some pid =>
          simp only [reconcile, hp]
          exact reconcile_ok e names rest
            (fun p hp2 => h p (List.mem_cons_of_mem _ hp2))
      | none =>
          have hf : pyFalsy (e.createResp lan) = true :=
            h (lan, uris) (List.mem_cons_self _ _) hp
          have hcp : create_playlist (e.createResp lan) e.appendResp uris
              = ([], Except.ok false) := by
            unfold create_playlist
            rw [hf]
            simp
          simp only [reconcile, hp, hcp]
          exact reconcile_ok e names rest
            (fun p hp2 => h p (List.mem_cons_of_mem _ hp2))

theorem lanSongsDict_keys_sub (tracks : List LSong) :
    ∀ p ∈ lanSongsDict tracks, ∃ t ∈ tracks, t.lan = p.1 := by
  intro p hp
  rw [lanSongsDict_eq] at hp
  obtain ⟨l, hl, rfl⟩ := List.mem_map.mp hp
  unfold distinctLans at hl
  have hml : l ∈ tracks.map LSong.lan := List.mem_dedup.mp hl
  obtain ⟨t, ht, rfl⟩ := List.mem_map.mp hml
  exact ⟨t, ht, rfl⟩

/-- Claim C6 counterexample: with a single saved track whose enrichment
lookup fails with a network error, the uncaught exception of
`get_songs_and_lan` propagates out of `process` to its caller. -/
theorem process_error_escapes :
    (process envLookupRaises).2 = Except.error PyError.requestError := rfl

/-- Claim C6 (amended): every failure `process` handles is converted at
its boundary — a token-exchange failure (no token, or a falsy one) to
an aborting boolean, page-fetch failures to skips,
no-hit/missing-field/null-language enrichment outcomes to the fallback
label, and an id-less playlist creation to an ignored `False` — and
under those handled failures `process` always returns normally, aborted
without a usable token and finished otherwise; but an enrichment lookup
that fails with a network error or malformed response (or the
`.status_code` read when a successfully created playlist receives a
non-empty append chunk) raises and propagates out of `process`. -/
theorem process_no_escape_when_handled (e : Env)
    (hcaught : ∀ i, e.lookups i ≠ LookupResult.requestFailed)
    (hcreate : ∀ t ∈ enrichedTracks e,
      playlistNames (playlistItems e) t.lan = none →
      pyFalsy (e.createResp t.lan) = true) :
    (process e).2 = Except.ok
      (if e.accessToken.getD "" = "" then ProcOutcome.aborted
       else ProcOutcome.finished) := by
  obtain ⟨ts, hts⟩ := assignLans_ok_of_caught e.lookups hcaught 0 (savedItems e)
  have hg : get_songs_and_lan (get_resource e.savedTotal e.savedPages).2
      e.lookups = Except.ok ts := hts
  have het : enrichedTracks e = ts := by
    unfold enrichedTracks
    rw [show get_songs_and_lan (savedItems e) e.lookups = Except.ok ts from hts]
  have hrec : (reconcile e (get_resource e.playlistsTotal e.playlistsPages).2
      (lanSongsDict ts)).2 = Except.ok () := by
    apply reconcile_ok
    intro p hp hn
    obtain ⟨t, ht, hlan⟩ := lanSongsDict_keys_sub ts p hp
    rw [← hlan] at hn ⊢
    exact hcreate t (het ▸ ht) hn
  cases hat : e.accessToken with
  | none =>
      unfold process
      rw [hat]
      simp
  | some tok =>
      by_cases htok : tok = ""
      · subst htok
        unfold process
        rw [hat]
        simp
      · unfold process
        rw [hat]
        simp [htok, hg, hrec]
        rfl

/-- Witness for the amended claim C6 at a concrete environment whose one
label has no existing playlist and whose creation call yields no id: the
ignored `False` lets the run finish normally. -/
theorem process_no_escape_witness :
    (process envNoPlaylists).2 = Except.ok
      (if envNoPlaylists.accessToken.getD "" = "" then ProcOutcome.aborted
       else ProcOutcome.finished) :=
  process_no_escape_when_handled envNoPlaylists
    (fun i => by simp [envNoPlaylists, envBase]) (by decide)

/-- Claim C9: if the token exchange obtains no access token (`authorize`
catches its exception, or the response has no token, and yields `None`),
`process` aborts immediately: the run issues no fetch and no
playlist-mutation request. -/
theorem process_aborts_without_token (e : Env) :
    process { e with accessToken := none }
      = ([], Except.ok ProcOutcome.aborted) := rfl
